import Mathlib

/-!
Verification of the cgo compilation orchestrator of the pants Go backend
(`pants.backend.go.util_rules.cgo`), as described by its specification and
exercised by `src/python/pants/backend/go/util_rules/cgo_test.py`.

The orchestrator's implementation module is not part of the provided source
tree (only its test suite is), so the pipeline below is a shallow embedding
modelled from the specification, with the concrete scenario inputs (file
names and contents) transcribed from the test suite.
-/

set_option maxRecDepth 100000

namespace Cgo

/-! ## Character-list utilities for flag substitution and classification -/

/-- The literal token `${SRCDIR}` as a character list; flag values may contain
it and it is substituted with the package source directory path. -/
def srcdirTok : List Char := ['$', '\x7b', 'S', 'R', 'C', 'D', 'I', 'R', '\x7d']

/-- Modelled from the spec: "Replace every occurrence of the literal token
`${SRCDIR}` in any flag value with the absolute sandbox path of the package
directory"; "this substitution is purely textual and happens exactly once".
A single left-to-right scan: at each position, if the token starts there, the
replacement `dir` is emitted and scanning resumes after the token (the emitted
replacement is never rescanned, hence "exactly once"). -/
def substSrcdir (dir : List Char) : List Char → List Char
  | [] => []
  | c :: rest =>
    if srcdirTok.isPrefixOf (c :: rest) then
      dir ++ substSrcdir dir ((c :: rest).drop srcdirTok.length)
    else
      c :: substSrcdir dir rest
termination_by s => s.length
decreasing_by
  · simp only [List.length_drop, List.length_cons, srcdirTok, List.length]
    omega
  · simp

/-- A character list contains `pat` as a contiguous substring. -/
def containsTok (pat : List Char) : List Char → Bool
  | [] => pat.isEmpty
  | c :: rest => pat.isPrefixOf (c :: rest) || containsTok pat rest

/-- If the head character differs from the pattern's head, the pattern is not
a prefix. -/
theorem isPrefixOf_cons_eq_false {p : Char} {ps : List Char} {c : Char}
    {rest : List Char} (h : c ≠ p) : (p :: ps).isPrefixOf (c :: rest) = false := by
  simp [List.isPrefixOf, h.symm]

/-- A scan that never sees the character `$` never substitutes: the flag value
is returned unchanged. -/
theorem substSrcdir_of_not_mem_dollar {dir : List Char} :
    ∀ {s : List Char}, '$' ∉ s → substSrcdir dir s = s := by
  intro s
  induction s with
  | nil => intro _; simp [substSrcdir]
  | cons c rest ih =>
    intro h
    have hc : c ≠ '$' := fun hc => h (hc ▸ List.mem_cons_self c rest)
    have hrest : '$' ∉ rest := fun hm => h (List.mem_cons_of_mem c hm)
    rw [substSrcdir]
    rw [show srcdirTok = '$' :: srcdirTok.tail from rfl]
    rw [isPrefixOf_cons_eq_false hc]
    simp [ih hrest]

/-- The token is a prefix of itself followed by anything. -/
theorem srcdirTok_isPrefixOf_append (b : List Char) :
    srcdirTok.isPrefixOf (srcdirTok ++ b) = true := by
  rw [List.isPrefixOf_iff_prefix]
  exact List.prefix_append _ _

/-- Substitution on a value with exactly one occurrence of the token (its
surroundings are `$`-free) replaces that occurrence and nothing else: the
substitution is purely textual and happens exactly once. -/
theorem substSrcdir_single (dir a b : List Char) (ha : '$' ∉ a) (hb : '$' ∉ b) :
    substSrcdir dir (a ++ srcdirTok ++ b) = a ++ dir ++ b := by
  induction a with
  | nil =>
    simp only [List.nil_append]
    rw [show srcdirTok ++ b = '$' :: (srcdirTok.tail ++ b) from rfl]
    rw [substSrcdir]
    rw [show ('$' :: (srcdirTok.tail ++ b)) = srcdirTok ++ b from rfl]
    rw [srcdirTok_isPrefixOf_append]
    simp only [if_pos]
    rw [show (srcdirTok ++ b).drop srcdirTok.length = b from List.drop_left _ _]
    rw [substSrcdir_of_not_mem_dollar hb]
  | cons c rest ih =>
    have hc : c ≠ '$' := fun hc => ha (hc ▸ List.mem_cons_self c rest)
    have hrest : '$' ∉ rest := fun hm => ha (List.mem_cons_of_mem c hm)
    simp only [List.cons_append]
    rw [substSrcdir]
    rw [show srcdirTok = '$' :: srcdirTok.tail from rfl]
    rw [isPrefixOf_cons_eq_false hc]
    simp only [if_neg Bool.false_ne_true, List.cons_append]
    rw [show ('$' :: srcdirTok.tail : List Char) = srcdirTok from rfl]
    rw [ih hrest]

/-! ## String-level wrappers -/

/-- Two strings with the same character data are equal. -/
theorem string_ext {a b : String} (h : a.data = b.data) : a = b := by
  cases a; cases b; exact congrArg String.mk h

/-- String-level `${SRCDIR}` substitution: the flag value's characters are
scanned once and each occurrence of the token is replaced by `dir`. -/
def expandSrcdir (dir : String) (flag : String) : String :=
  ⟨substSrcdir dir.data flag.data⟩

/-- String-level substring containment. -/
def strContains (pat s : String) : Bool :=
  containsTok pat.data s.data

/-- String-level suffix test (on the character data). -/
def strEndsWith (s suffix : String) : Bool :=
  suffix.data.isSuffixOf s.data

/-! ## Flag resolver (spec §4.1) -/

/-- Per-directive flag lists attached to a package, extracted upstream from
`#cgo` comment directives: CFLAGS, CXXFLAGS, FFLAGS, LDFLAGS, each an ordered
sequence of strings. -/
structure CGoFlags where
  cflags : List String
  cxxflags : List String
  fflags : List String
  ldflags : List String
deriving DecidableEq, Repr

/-- The four flag categories handled by the toolchain flag resolver. -/
inductive FlagCategory where
  | cflags
  | cxxflags
  | fflags
  | ldflags
deriving DecidableEq, Repr

/-- The `#cgo`-directive-discovered flags of one category, in source order. -/
def CGoFlags.get (f : CGoFlags) : FlagCategory → List String
  | .cflags => f.cflags
  | .cxxflags => f.cxxflags
  | .fflags => f.fflags
  | .ldflags => f.ldflags

/-- Modelled from the spec (§4.1): "For each category, concatenate: (a) flags
discovered from `#cgo` directives in source order, (b) global/user-configured
extra flags, in that fixed order — global flags are appended, never
prepended", then "replace every occurrence of the literal token `${SRCDIR}`
in any flag value with the absolute sandbox path of the package directory". -/
def resolveFlags (srcdirAbs : String) (directive extra : List String) : List String :=
  (directive ++ extra).map (expandSrcdir srcdirAbs)

/-- Resolve one category of a package's flags against global extras. -/
def resolveCategory (srcdirAbs : String) (f : CGoFlags) (extra : List String)
    (cat : FlagCategory) : List String :=
  resolveFlags srcdirAbs (f.get cat) extra

/-- A flag whose characters never include `$` is unchanged by resolution. -/
theorem expandSrcdir_of_no_dollar (dir : String) (flag : String)
    (h : '$' ∉ flag.data) : expandSrcdir dir flag = flag := by
  apply string_ext
  exact substSrcdir_of_not_mem_dollar h

/-- C2: for every flag category, the toolchain flag resolver emits the flags
discovered from `#cgo` directives in source order followed by the
global/user-configured extra flags appended after them, never prepended; in
particular, with directive CFLAGS `["-DFOO", "-I/a"]` and global extra flags
`["-Wall"]`, the resolved argument list contains `-DFOO`, `-I/a`, `-Wall` in
that relative order — here: is exactly that list. -/
theorem resolver_appends_globals_after_directives :
    (∀ (srcdirAbs : String) (f : CGoFlags) (extra : List String) (cat : FlagCategory),
      resolveCategory srcdirAbs f extra cat =
        (f.get cat).map (expandSrcdir srcdirAbs) ++ extra.map (expandSrcdir srcdirAbs)) ∧
    (∀ srcdirAbs : String,
      resolveFlags srcdirAbs ["-DFOO", "-I/a"] ["-Wall"] = ["-DFOO", "-I/a", "-Wall"]) := by
  constructor
  · intro srcdirAbs f extra cat
    simp [resolveCategory, resolveFlags]
  · intro srcdirAbs
    simp only [resolveFlags, List.map_append, List.map]
    rw [expandSrcdir_of_no_dollar _ _ (by decide),
      expandSrcdir_of_no_dollar _ _ (by decide),
      expandSrcdir_of_no_dollar _ _ (by decide)]

/-- C3: every occurrence of the literal token `${SRCDIR}` in a flag value is
replaced, purely textually and exactly once, with the absolute sandbox path
of the package's source directory; in particular a CFLAGS entry
`-I${SRCDIR}/foo` with package directory `pkg/sub` under sandbox root
`sandboxRoot` resolves to exactly `-I<sandboxRoot>/pkg/sub/foo`. -/
theorem srcdir_substitution (sandboxRoot : String) :
    resolveFlags (sandboxRoot ++ "/pkg/sub") ["-I$\x7bSRCDIR\x7d/foo"] [] =
      ["-I" ++ sandboxRoot ++ "/pkg/sub/foo"] ∧
    (∀ (dir : String) (a b : List Char), '$' ∉ a → '$' ∉ b →
      expandSrcdir dir ⟨a ++ srcdirTok ++ b⟩ = ⟨a ++ dir.data ++ b⟩) := by
  constructor
  · simp only [resolveFlags, List.append_nil, List.map]
    congr 1
    apply string_ext
    show substSrcdir (sandboxRoot ++ "/pkg/sub").data
      ("-I$\x7bSRCDIR\x7d/foo").data = _
    rw [show ("-I$\x7bSRCDIR\x7d/foo").data =
      "-I".data ++ srcdirTok ++ "/foo".data from rfl]
    rw [substSrcdir_single _ _ _ (by decide) (by decide)]
    show "-I".data ++ (sandboxRoot.data ++ "/pkg/sub".data) ++ "/foo".data =
      "-I".data ++ (sandboxRoot.data ++ "/pkg/sub/foo".data)
    simp [List.append_assoc]
  · intro dir a b ha hb
    apply string_ext
    show substSrcdir dir.data (a ++ srcdirTok ++ b) = _
    exact substSrcdir_single _ _ _ ha hb

/-- Witness for C3 at a concrete flag value and source directory. -/
theorem srcdir_substitution_witness :
    expandSrcdir "/sandbox/pkg/sub" ⟨"-I".data ++ srcdirTok ++ "/foo".data⟩ =
      ⟨"-I".data ++ "/sandbox/pkg/sub".data ++ "/foo".data⟩ :=
  (srcdir_substitution "/sandbox").2 "/sandbox/pkg/sub" "-I".data "/foo".data
    (by decide) (by decide)

/-! ## Compile pipeline (spec §2–§5) -/

/-- One Go package's cgo compilation unit (spec §3): import path, package
name, directory path, filename lists partitioned by kind, and the per-directive
flag lists. The content-addressed input tree is carried separately where a
scenario needs it. -/
structure CompileRequest where
  importPath : String
  pkgName : String
  dirPath : String
  cgoFiles : List String
  cFiles : List String
  cxxFiles : List String
  objcFiles : List String
  fortranFiles : List String
  headerFiles : List String
  cgoFlags : CGoFlags
deriving DecidableEq, Repr

/-- A typed compile failure: the phase that failed, the file it failed on,
and the underlying process stderr (spec §7: errors carry file name, phase and
stderr). -/
structure CompileErr where
  phase : String
  file : String
  stderr : String
deriving DecidableEq, Repr

/-- Name of the cgo-generated C "export" glue file (spec §4.2). -/
def genCFileName : String := "_cgo_export.c"

/-- Name of the object file produced by the Go stub compiler (spec §4.4). -/
def goStubObjName : String := "_go_.o"

/-- The object file name for one native source file: one object per source. -/
def objName (src : String) : String := src ++ ".o"

/-- Modelled from the spec (§4.3): the native sources of a request are every
user-provided `.c`/`.cc`/`.m`/`.f90` file plus the one generated C file from
the cgo preprocess step, each tagged with the category of flags its toolchain
receives: CFLAGS for C, CXXFLAGS for C++, CFLAGS again for Objective-C (no
separate category), FFLAGS for Fortran; the generated glue is C. -/
def nativeSources (r : CompileRequest) : List (String × FlagCategory) :=
  r.cFiles.map (fun f => (f, FlagCategory.cflags)) ++
  r.cxxFiles.map (fun f => (f, FlagCategory.cxxflags)) ++
  r.objcFiles.map (fun f => (f, FlagCategory.cflags)) ++
  r.fortranFiles.map (fun f => (f, FlagCategory.fflags)) ++
  [(genCFileName, FlagCategory.cflags)]

/-- An external toolchain behavior (spec §6 "Process execution" and design
note "External-tool-as-black-box"): flag category, resolved argument list and
source file name determine the produced object file contents, or a compile
error carrying the process stderr. A deterministic function, matching §5:
each native compile is a pure function of (toolchain, flags, one source
file). -/
def ToolchainRun : Type := FlagCategory → List String → String → Except CompileErr String

/-- Sequence the fallible per-file native compiles (spec §5: a join barrier —
the assembler waits for all of them; the first failure aborts the request and
its error is the one surfaced). -/
def mapE {α β : Type} (g : α → Except CompileErr β) : List α → Except CompileErr (List β)
  | [] => .ok []
  | x :: xs =>
    match g x with
    | .error e => .error e
    | .ok y =>
      match mapE g xs with
      | .error e => .error e
      | .ok ys => .ok (y :: ys)

/-- Compile one native source file with its category-appropriate resolved
flags, producing the named object file. -/
def compileOne (tc : ToolchainRun) (srcdirAbs : String) (flags : CGoFlags)
    (extraFor : FlagCategory → List String) (fc : String × FlagCategory) :
    Except CompileErr (String × String) :=
  (tc fc.2 (resolveCategory srcdirAbs flags (extraFor fc.2) fc.2) fc.1).map
    (fun content => (objName fc.1, content))

/-- The native compiler dispatcher: one object file per native source file. -/
def compileNatives (tc : ToolchainRun) (srcdirAbs : String)
    (extraFor : FlagCategory → List String) (r : CompileRequest) :
    Except CompileErr (List (String × String)) :=
  mapE (compileOne tc srcdirAbs r.cgoFlags extraFor) (nativeSources r)

/-- Order on archive members: lexicographic on the filename, with the member
contents as tie-break so that the order is total and antisymmetric on
arbitrary member pairs. -/
def memberLe (a b : String × String) : Prop :=
  a.1 < b.1 ∨ (a.1 = b.1 ∧ a.2 ≤ b.2)

instance : DecidableRel memberLe := fun _ _ =>
  inferInstanceAs (Decidable (_ ∨ _))

instance : IsTotal (String × String) memberLe where
  total a b := by
    rcases lt_trichotomy a.1 b.1 with h | h | h
    · exact Or.inl (Or.inl h)
    · rcases le_total a.2 b.2 with h2 | h2
      · exact Or.inl (Or.inr ⟨h, h2⟩)
      · exact Or.inr (Or.inr ⟨h.symm, h2⟩)
    · exact Or.inr (Or.inl h)

instance : IsTrans (String × String) memberLe where
  trans a b c hab hbc := by
    rcases hab with hab | ⟨hab, hab2⟩
    · rcases hbc with hbc | ⟨hbc, _⟩
      · exact Or.inl (hab.trans hbc)
      · exact Or.inl (hbc ▸ hab)
    · rcases hbc with hbc | ⟨hbc, hbc2⟩
      · exact Or.inl (hab ▸ hbc)
      · exact Or.inr ⟨hab.trans hbc, hab2.trans hbc2⟩

instance : IsAntisymm (String × String) memberLe where
  antisymm a b hab hba := by
    rcases hab with hab | ⟨hab, hab2⟩
    · rcases hba with hba | ⟨hba, _⟩
      · exact absurd (hab.trans hba) (lt_irrefl _)
      · exact absurd hab (hba ▸ lt_irrefl _)
    · rcases hba with hba | ⟨_, hba2⟩
      · exact absurd hba (hab ▸ lt_irrefl _)
      · exact Prod.ext hab (le_antisymm hab2 hba2)

/-- Modelled from the spec (§4.5): "sort object filenames lexicographically
before archiving", so the archive member order is deterministic. -/
def sortObjects (objs : List (String × String)) : List (String × String) :=
  List.insertionSort memberLe objs

/-- The full object set fed to the archive assembler: the native objects plus
the one Go-stub object (spec §3 invariant). -/
def assemblerInput (natives : List (String × String)) (goObj : String × String) :
    List (String × String) :=
  natives ++ [goObj]

/-- The final compiled-package artifact: the archive's well-known relative
path and its member list in archiver append order. -/
structure CompileResult where
  archivePath : String
  members : List (String × String)
deriving DecidableEq, Repr

/-- Modelled from the spec (§2, §4, §5): the `Compile` pipeline. Native
compiles fan out and join; `sched` models the order in which the engine
delivers the concurrently-completed objects to the assembler (any
permutation); the assembler sorts before archiving. `goc` is the external Go
stub compiler's result (spec §4.4, a delegated black box). -/
def cgoCompileSched (tc : ToolchainRun) (goc : Except CompileErr String)
    (sched : List (String × String) → List (String × String))
    (srcdirAbs : String) (extraFor : FlagCategory → List String)
    (r : CompileRequest) : Except CompileErr CompileResult :=
  match compileNatives tc srcdirAbs extraFor r with
  | .error e => .error e
  | .ok natives =>
    match goc with
    | .error e => .error e
    | .ok goContent =>
      .ok ⟨"_all.a", sortObjects (sched (assemblerInput natives (goStubObjName, goContent)))⟩

/-- The sole public entry point `Compile` (spec §6), with in-order delivery. -/
def cgoCompile (tc : ToolchainRun) (goc : Except CompileErr String)
    (srcdirAbs : String) (extraFor : FlagCategory → List String)
    (r : CompileRequest) : Except CompileErr CompileResult :=
  cgoCompileSched tc goc id srcdirAbs extraFor r

/-! ## Pipeline lemmas -/

/-- If every element before `x` compiles and `x` fails with `e`, the whole
sequenced compile fails with exactly `e`. -/
theorem mapE_append_error {α β : Type} (g : α → Except CompileErr β)
    (pre : List α) (x : α) (post : List α) (e : CompileErr)
    (hpre : ∀ y ∈ pre, ∃ o, g y = .ok o) (hx : g x = .error e) :
    mapE g (pre ++ x :: post) = .error e := by
  induction pre with
  | nil => simp [mapE, hx]
  | cons y ys ih =>
    obtain ⟨o, ho⟩ := hpre y (List.mem_cons_self y ys)
    have hrec := ih (fun z hz => hpre z (List.mem_cons_of_mem y hz))
    simp [mapE, ho, hrec]

/-- If some element of the list fails to compile, the sequenced compile
returns an error. -/
theorem mapE_error_of_exists {α β : Type} (g : α → Except CompileErr β)
    (l : List α) (hfail : ∃ x ∈ l, ∃ e, g x = .error e) :
    ∃ e', mapE g l = .error e' := by
  induction l with
  | nil => obtain ⟨x, hx, _⟩ := hfail; exact absurd hx (List.not_mem_nil x)
  | cons y ys ih =>
    obtain ⟨x, hx, e, he⟩ := hfail
    cases hy : g y with
    | error e0 => exact ⟨e0, by simp [mapE, hy]⟩
    | ok o =>
      rcases List.mem_cons.mp hx with rfl | hx'
      · rw [hy] at he; exact absurd he (by simp)
      · obtain ⟨e', he'⟩ := ih ⟨x, hx', e, he⟩
        exact ⟨e', by simp [mapE, hy, he']⟩

/-- Successful sequenced compiles produce outputs in one-to-one positional
correspondence with their inputs: mapping `q` over the outputs equals mapping
`p` over the inputs whenever `g` sends each input to an output related that
way. -/
theorem mapE_ok_map_eq {α β γ : Type} (g : α → Except CompileErr β)
    (p : α → γ) (q : β → γ) (hpq : ∀ x y, g x = .ok y → q y = p x) :
    ∀ (l : List α) (out : List β), mapE g l = .ok out → out.map q = l.map p := by
  intro l
  induction l with
  | nil =>
    intro out h
    simp only [mapE] at h
    cases h
    simp
  | cons x xs ih =>
    intro out h
    cases hx : g x with
    | error e => simp [mapE, hx] at h
    | ok y =>
      cases hrest : mapE g xs with
      | error e => simp [mapE, hx, hrest] at h
      | ok ys =>
        simp only [mapE, hx, hrest] at h
        cases h
        simp [ih ys hrest, hpq x y hx]

/-- A single successful native compile yields the object named after its
source file. -/
theorem compileOne_ok_name (tc : ToolchainRun) (srcdirAbs : String)
    (flags : CGoFlags) (extraFor : FlagCategory → List String)
    (fc : String × FlagCategory) (y : String × String)
    (h : compileOne tc srcdirAbs flags extraFor fc = .ok y) :
    y.1 = objName fc.1 := by
  unfold compileOne at h
  cases htc : tc fc.2 (resolveCategory srcdirAbs flags (extraFor fc.2) fc.2) fc.1 with
  | error e => rw [htc] at h; simp [Except.map] at h
  | ok c => rw [htc] at h; simp only [Except.map] at h; cases h; rfl

/-- Appending a suffix to a filename is injective. -/
theorem objName_injective {a b : String} (h : objName a = objName b) : a = b := by
  have hd : a.data ++ ".o".data = b.data ++ ".o".data := congrArg String.data h
  have h2 := List.append_cancel_right hd
  exact string_ext h2

/-- Sorting a non-empty object set yields a non-empty archive. -/
theorem sortObjects_ne_nil {l : List (String × String)} (h : l ≠ []) :
    sortObjects l ≠ [] := by
  intro hs
  have hp : List.Perm (sortObjects l) l := List.perm_insertionSort memberLe l
  rw [hs] at hp
  exact h hp.nil_eq.symm

/-- Sorting is invariant under permutation of its input: two deliveries of
the same object set in different orders produce the same archive member
order. -/
theorem sortObjects_congr {l₁ l₂ : List (String × String)} (h : l₁.Perm l₂) :
    sortObjects l₁ = sortObjects l₂ :=
  List.eq_of_perm_of_sorted
    ((List.perm_insertionSort _ l₁).trans (h.trans (List.perm_insertionSort _ l₂).symm))
    (List.sorted_insertionSort _ _) (List.sorted_insertionSort _ _)

/-- If the underlying compiler invocation fails, the per-file compile step
fails with the same error. -/
theorem compileOne_error (tc : ToolchainRun) (srcdirAbs : String)
    (flags : CGoFlags) (extraFor : FlagCategory → List String)
    (fc : String × FlagCategory) (e : CompileErr)
    (h : tc fc.2 (resolveCategory srcdirAbs flags (extraFor fc.2) fc.2) fc.1 = .error e) :
    compileOne tc srcdirAbs flags extraFor fc = .error e := by
  unfold compileOne
  rw [h]
  rfl

/-- C4: if at least one native source file's compiler invocation exits
non-zero, `Compile` returns a failure and no `CompileResult` is produced (no
archive in any returned value); moreover the error surfaced is exactly the
error — carrying that file's compiler stderr — of the first native file whose
invocation fails. -/
theorem native_failure_aborts (tc : ToolchainRun) (goc : Except CompileErr String)
    (srcdirAbs : String) (extraFor : FlagCategory → List String) (r : CompileRequest)
    (hfail : ∃ fc ∈ nativeSources r, ∃ e,
      tc fc.2 (resolveCategory srcdirAbs r.cgoFlags (extraFor fc.2) fc.2) fc.1 = .error e) :
    (∃ e', cgoCompile tc goc srcdirAbs extraFor r = .error e') ∧
    (∀ res : CompileResult, cgoCompile tc goc srcdirAbs extraFor r ≠ .ok res) ∧
    (∀ (pre post : List (String × FlagCategory)) (f : String) (cat : FlagCategory)
      (e : CompileErr),
      nativeSources r = pre ++ (f, cat) :: post →
      (∀ fc ∈ pre, ∃ o, compileOne tc srcdirAbs r.cgoFlags extraFor fc = .ok o) →
      tc cat (resolveCategory srcdirAbs r.cgoFlags (extraFor cat) cat) f = .error e →
      cgoCompile tc goc srcdirAbs extraFor r = .error e) := by
  obtain ⟨fc, hmem, e, he⟩ := hfail
  have hnat : ∃ e', compileNatives tc srcdirAbs extraFor r = .error e' :=
    mapE_error_of_exists _ _ ⟨fc, hmem, e, compileOne_error tc srcdirAbs r.cgoFlags extraFor fc e he⟩
  obtain ⟨e', he'⟩ := hnat
  refine ⟨⟨e', ?_⟩, ?_, ?_⟩
  · unfold cgoCompile cgoCompileSched
    rw [he']
  · intro res
    unfold cgoCompile cgoCompileSched
    rw [he']
    simp
  · intro pre post f cat e0 hsplit hpre htc
    have hmapE : compileNatives tc srcdirAbs extraFor r = .error e0 := by
      unfold compileNatives
      rw [hsplit]
      exact mapE_append_error _ pre (f, cat) post e0 hpre
        (compileOne_error tc srcdirAbs r.cgoFlags extraFor (f, cat) e0 htc)
    unfold cgoCompile cgoCompileSched
    rw [hmapE]

/-- A toolchain model that fails on the file `bad.c` and succeeds on every
other file. -/
def tcFailBad : ToolchainRun := fun _ _ f =>
  if f = "bad.c" then .error ⟨"compile", "bad.c", "bad.c: syntax error"⟩
  else .ok ("obj:" ++ f)

/-- A toolchain model that compiles every file successfully. -/
def tcAllOk : ToolchainRun := fun _ _ f => .ok ("obj:" ++ f)

/-- A request with three user C files, the middle one of which `tcFailBad`
rejects. -/
def reqBad : CompileRequest :=
  ⟨"example.com/p", "main", "", ["main.go"], ["a.c", "bad.c", "ok2.c"], [], [], [], [],
    ⟨[], [], [], []⟩⟩

/-- Witness for C4: with one of three C files failing, `Compile` returns
exactly the failing file's error. -/
theorem native_failure_aborts_witness :
    cgoCompile tcFailBad (.ok "gostub") "/sd" (fun _ => []) reqBad =
      .error ⟨"compile", "bad.c", "bad.c: syntax error"⟩ :=
  (native_failure_aborts tcFailBad (.ok "gostub") "/sd" (fun _ => []) reqBad
      ⟨("bad.c", FlagCategory.cflags), by decide, ⟨"compile", "bad.c", "bad.c: syntax error"⟩,
        rfl⟩).2.2
    [("a.c", FlagCategory.cflags)]
    [("ok2.c", FlagCategory.cflags), (genCFileName, FlagCategory.cflags)]
    "bad.c" FlagCategory.cflags ⟨"compile", "bad.c", "bad.c: syntax error"⟩
    (by decide)
    (fun fc hfc => by
      have : fc = ("a.c", FlagCategory.cflags) := List.mem_singleton.mp hfc
      exact this ▸ ⟨("a.c.o", "obj:a.c"), rfl⟩)
    rfl

/-- C5: for every successful request, the object set fed to the archive
assembler is exactly one object per native source file (user files plus the
one cgo-generated C glue file) together with exactly one Go-stub object —
their names in one-to-one correspondence with the native sources, the total
count determined by the file lists, and no name missing or duplicated. -/
theorem object_set_complete (tc : ToolchainRun) (goc : Except CompileErr String)
    (srcdirAbs : String) (extraFor : FlagCategory → List String) (r : CompileRequest)
    (natives : List (String × String)) (goContent : String)
    (hok : compileNatives tc srcdirAbs extraFor r = .ok natives)
    (hgo : goc = .ok goContent)
    (hnd : ((nativeSources r).map Prod.fst).Nodup)
    (hgn : "_go_" ∉ (nativeSources r).map Prod.fst) :
    (assemblerInput natives (goStubObjName, goContent)).map Prod.fst =
      (nativeSources r).map (fun fc => objName fc.1) ++ [goStubObjName] ∧
    (assemblerInput natives (goStubObjName, goContent)).length =
      (r.cFiles.length + r.cxxFiles.length + r.objcFiles.length +
        r.fortranFiles.length + 1) + 1 ∧
    ((assemblerInput natives (goStubObjName, goContent)).map Prod.fst).Nodup ∧
    cgoCompile tc goc srcdirAbs extraFor r =
      .ok ⟨"_all.a", sortObjects (assemblerInput natives (goStubObjName, goContent))⟩ := by
  have hnames : natives.map Prod.fst = (nativeSources r).map (fun fc => objName fc.1) :=
    mapE_ok_map_eq _ (fun fc => objName fc.1) Prod.fst
      (fun x y hxy => compileOne_ok_name tc srcdirAbs r.cgoFlags extraFor x y hxy)
      (nativeSources r) natives hok
  have hinput : (assemblerInput natives (goStubObjName, goContent)).map Prod.fst =
      (nativeSources r).map (fun fc => objName fc.1) ++ [goStubObjName] := by
    simp [assemblerInput, hnames]
  refine ⟨hinput, ?_, ?_, ?_⟩
  · have hlen : natives.length = (nativeSources r).length := by
      have := congrArg List.length hnames
      simpa using this
    have hns : (nativeSources r).length =
        r.cFiles.length + r.cxxFiles.length + r.objcFiles.length +
          r.fortranFiles.length + 1 := by
      simp [nativeSources]
      omega
    simp [assemblerInput, hlen, hns]
  · rw [hinput]
    have hmm : (nativeSources r).map (fun fc => objName fc.1) =
        ((nativeSources r).map Prod.fst).map objName := by
      simp [List.map_map, Function.comp]
    rw [hmm]
    have hobjs : (((nativeSources r).map Prod.fst).map objName).Nodup :=
      hnd.map (fun _ _ h => objName_injective h)
    have hnotin : goStubObjName ∉ ((nativeSources r).map Prod.fst).map objName := by
      intro hmem
      obtain ⟨f, hf, hobj⟩ := List.mem_map.mp hmem
      have hfeq : f = "_go_" := objName_injective (hobj.trans (show goStubObjName = objName "_go_" from rfl))
      exact hgn (hfeq ▸ hf)
    refine List.Nodup.append hobjs (List.nodup_singleton _) ?_
    intro a ha hb
    exact hnotin ((List.mem_singleton.mp hb) ▸ ha)
  · unfold cgoCompile cgoCompileSched
    rw [hok, hgo]
    rfl

/-- A request with two user C files, one C++ file and one cgo file, as in the
claim's example. -/
def reqTwoC : CompileRequest :=
  ⟨"example.com/p", "main", "", ["main.go"], ["a.c", "b.c"], ["p.cxx"], [], [], [],
    ⟨[], [], [], []⟩⟩

/-- Witness for C5: two C files, one C++ file and cgo files yield exactly
4 native objects (2 C + 1 C++ + 1 generated glue) plus 1 Go-stub object. -/
theorem object_set_complete_witness :
    (assemblerInput
        [("a.c.o", "obj:a.c"), ("b.c.o", "obj:b.c"), ("p.cxx.o", "obj:p.cxx"),
          ("_cgo_export.c.o", "obj:_cgo_export.c")]
        (goStubObjName, "gostub")).length = (2 + 1 + 0 + 0 + 1) + 1 :=
  (object_set_complete tcAllOk (.ok "gostub") "/sd" (fun _ => []) reqTwoC
    [("a.c.o", "obj:a.c"), ("b.c.o", "obj:b.c"), ("p.cxx.o", "obj:p.cxx"),
      ("_cgo_export.c.o", "obj:_cgo_export.c")]
    "gostub" rfl rfl (by decide) (by decide)).2.1

/-- C6: `Compile` is a deterministic pure function of its inputs: invoking it
twice on byte-identical inputs gives identical results, and the result does
not depend on the order in which the engine happens to deliver the
concurrently-compiled objects to the assembler — any two permutation-only
delivery schedules produce byte-identical archives. -/
theorem compile_deterministic (tc : ToolchainRun) (goc : Except CompileErr String)
    (srcdirAbs : String) (extraFor : FlagCategory → List String) (r : CompileRequest)
    (sched₁ sched₂ : List (String × String) → List (String × String))
    (h₁ : ∀ l, (sched₁ l).Perm l) (h₂ : ∀ l, (sched₂ l).Perm l) :
    cgoCompileSched tc goc sched₁ srcdirAbs extraFor r =
      cgoCompileSched tc goc sched₂ srcdirAbs extraFor r ∧
    cgoCompile tc goc srcdirAbs extraFor r = cgoCompile tc goc srcdirAbs extraFor r := by
  refine ⟨?_, rfl⟩
  unfold cgoCompileSched
  cases compileNatives tc srcdirAbs extraFor r with
  | error e => rfl
  | ok natives =>
    cases goc with
    | error e => rfl
    | ok goContent =>
      have hperm := sortObjects_congr
        ((h₁ (assemblerInput natives (goStubObjName, goContent))).trans
          (h₂ (assemblerInput natives (goStubObjName, goContent))).symm)
      simp [hperm]

/-- Witness for C6: in-order and reversed delivery of the compiled objects
produce the same result on a concrete request. -/
theorem compile_deterministic_witness :
    cgoCompileSched tcAllOk (.ok "gostub") id "/sd" (fun _ => []) reqTwoC =
      cgoCompileSched tcAllOk (.ok "gostub") List.reverse "/sd" (fun _ => []) reqTwoC :=
  (compile_deterministic tcAllOk (.ok "gostub") "/sd" (fun _ => []) reqTwoC
    id List.reverse (fun l => List.Perm.refl l) (fun l => l.reverse_perm)).1

/-- C8: the archive assembler sorts object filenames lexicographically before
invoking the archiver over the full object set — the sorted member list is
ordered by filename, contains exactly the given objects, and is the same for
any two delivery orders of the same set, so the member order is
deterministic. -/
theorem archive_members_ordered :
    (∀ objs : List (String × String),
      (sortObjects objs).Pairwise (fun a b => a.1 ≤ b.1) ∧ (sortObjects objs).Perm objs) ∧
    (∀ objs₁ objs₂ : List (String × String), objs₁.Perm objs₂ →
      sortObjects objs₁ = sortObjects objs₂) := by
  constructor
  · intro objs
    constructor
    · have hs : (sortObjects objs).Pairwise memberLe :=
        List.sorted_insertionSort memberLe objs
      exact hs.imp (fun h => by
        rcases h with h | ⟨h, _⟩
        · exact le_of_lt h
        · exact le_of_eq h)
    · exact List.perm_insertionSort memberLe objs
  · intro objs₁ objs₂ h
    exact sortObjects_congr h

/-- Witness for C8 on a concrete pair of out-of-order object sets. -/
theorem archive_members_ordered_witness :
    sortObjects [("b.o", "2"), ("a.o", "1")] = sortObjects [("a.o", "1"), ("b.o", "2")] :=
  archive_members_ordered.2 _ _ (List.Perm.swap ("a.o", "1") ("b.o", "2") [])

/-! ## First-party package analysis (modelled) and scenario A -/

/-- The per-kind file classification produced by first-party package
analysis. -/
structure Analysis where
  goFiles : List String
  cgoFiles : List String
  cFiles : List String
  cxxFiles : List String
  mFiles : List String
  fFiles : List String
  hFiles : List String
deriving DecidableEq, Repr

/-- Modelled from the spec: the "first-party package analysis" collaborator
(§1, §6) "parses Go source to classify files (`.go`, `.c`, `.cc`, `.m`,
`.f90`, etc.)"; a `.go` file referencing the pseudo-package `import "C"`
(glossary: cgo) is a cgo file, all other `.go` files are plain Go files, and
the remaining files are classified by extension. -/
def analyze : List (String × String) → Analysis
  | [] => ⟨[], [], [], [], [], [], []⟩
  | (name, content) :: rest =>
    let a := analyze rest
    if strEndsWith name ".go" then
      if strContains "import \"C\"" content then
        { a with cgoFiles := name :: a.cgoFiles }
      else
        { a with goFiles := name :: a.goFiles }
    else if strEndsWith name ".c" then { a with cFiles := name :: a.cFiles }
    else if strEndsWith name ".cc" || strEndsWith name ".cpp" || strEndsWith name ".cxx" then
      { a with cxxFiles := name :: a.cxxFiles }
    else if strEndsWith name ".m" then { a with mFiles := name :: a.mFiles }
    else if strEndsWith name ".f" || strEndsWith name ".f90" || strEndsWith name ".F" then
      { a with fFiles := name :: a.fFiles }
    else if strEndsWith name ".h" || strEndsWith name ".hh" || strEndsWith name ".hpp" then
      { a with hFiles := name :: a.hFiles }
    else a

/-- The cgo source file `printer.go` of end-to-end scenario A, transcribed
from `test_cgo_compile`: its preamble defines `do_print` only under
`#ifdef DEFINE_DO_PRINT` and `#ifdef NUMBER`, and its `#cgo` directive asks
for `-DDEFINE_DO_PRINT -I ${SRCDIR}/foo`. -/
def scenarioAPrinterGo : String :=
  String.intercalate "\n"
    ["package main",
     "",
     "// /* Define this constant to test passing CFLAGS through to compiler. */",
     "// #cgo CFLAGS: -DDEFINE_DO_PRINT -I $\x7bSRCDIR\x7d/foo",
     "//",
     "// #include <stdio.h>",
     "// #include <stdlib.h>",
     "//",
     "// #include \"constants.h\"",
     "//",
     "// #ifdef DEFINE_DO_PRINT",
     "// #ifdef NUMBER",
     "// void do_print(char * str) \x7b",
     "//   fputs(str, stdout);",
     "//   fflush(stdout);",
     "// \x7d",
     "// #endif",
     "// #endif", "import \"C\"", "import \"unsafe\"",
     "",
     "func Print(s string) \x7b",
     "    cs := C.CString(s)",
     "    C.do_print(cs)",
     "    C.free(unsafe.Pointer(cs))",
     "\x7d", ""]

/-- The plain Go file `grok.go` of scenario A: no `import "C"`, calls the
cgo file's exported `Print`. -/
def scenarioAGrokGo : String :=
  String.intercalate "\n"
    ["package main",
     "",
     "func main() \x7b",
     "    Print(\"Hello World!\\n\")",
     "\x7d", ""]

/-- The header-only resource of scenario A, supplied by a separate
`resource` target in directory `foo`. -/
def scenarioAConstantsH : String := "#define NUMBER 2\n"

/-- The package's own source files (what package analysis sees). -/
def scenarioAPkgFiles : List (String × String) :=
  [("grok.go", scenarioAGrokGo), ("printer.go", scenarioAPrinterGo)]

/-- The full content-addressed input tree of scenario A: the package sources
plus the dependency-supplied header at `foo/constants.h`. -/
def scenarioATree : List (String × String) :=
  scenarioAPkgFiles ++ [("foo/constants.h", scenarioAConstantsH)]

/-- The `#cgo`-directive flags of scenario A, as extracted upstream from
`printer.go` (whitespace-split, so `-I` and its argument are separate). -/
def scenarioAFlags : CGoFlags :=
  ⟨["-DDEFINE_DO_PRINT", "-I", "$\x7bSRCDIR\x7d/foo"], [], [], []⟩

/-- The `CGoCompileRequest` of scenario A: one cgo file, no user native
files, package at the sandbox root. -/
def scenarioARequest : CompileRequest :=
  ⟨"example.pantsbuild.org/cgotest", "main", "", ["printer.go"], [], [], [], [], [],
    scenarioAFlags⟩

/-- The absolute sandbox paths of a file tree's members. -/
def absTree (root : String) (tree : List (String × String)) : List String :=
  tree.map (fun p => root ++ "/" ++ p.1)

/-- The include search directories a C compiler derives from its argument
list: each `-I` flag names the directory given as the following argument
(the form the scenario's whitespace-split directive produces). -/
def includeDirs : List String → List String
  | [] => []
  | f :: rest =>
    match rest with
    | [] => []
    | d :: rest2 => if f = "-I" then d :: includeDirs rest2 else includeDirs (d :: rest2)

/-- A header file is visible to the compiler when some include directory
contains it. -/
def headerVisible (tree dirs : List String) (hdr : String) : Prop :=
  ∃ d ∈ dirs, (d ++ "/" ++ hdr) ∈ tree

instance (tree dirs : List String) (hdr : String) : Decidable (headerVisible tree dirs hdr) :=
  inferInstanceAs (Decidable (∃ d ∈ dirs, (d ++ "/" ++ hdr) ∈ tree))

/-- Modelled from the scenario's C preamble: `do_print` is defined only when
the macro `DEFINE_DO_PRINT` is set on the command line and `constants.h`
(which defines `NUMBER`) is reachable through an include directory. -/
def scenarioADoPrintDefined (root : String) : Prop :=
  "-DDEFINE_DO_PRINT" ∈ resolveCategory root scenarioAFlags [] FlagCategory.cflags ∧
  headerVisible (absTree root scenarioATree)
    (includeDirs (resolveCategory root scenarioAFlags [] FlagCategory.cflags)) "constants.h"

instance (root : String) : Decidable (scenarioADoPrintDefined root) :=
  inferInstanceAs (Decidable (_ ∧ _))

/-- The C compiler of scenario A: compiling the cgo-generated glue (which
calls `do_print`) succeeds exactly when the flags it is invoked with define
`DEFINE_DO_PRINT` and make `constants.h` visible; otherwise it exits
non-zero. -/
def tcScenarioA (root : String) : ToolchainRun := fun _ flags f =>
  if "-DDEFINE_DO_PRINT" ∈ flags ∧
      headerVisible (absTree root scenarioATree) (includeDirs flags) "constants.h" then
    .ok ("obj:" ++ f)
  else
    .error ⟨"compile", f, "error: call to undeclared function do_print"⟩

/-- Symbols referenced across objects in scenario A: the glue references the
preamble's `do_print`, and `grok.go`'s `main` references the cgo file's
`Print`. -/
def scenarioARefs : List String := ["do_print", "Print"]

/-- Symbols defined by scenario A's objects: `do_print` from the preamble
when the preprocessor kept it, `Print` from `printer.go`'s Go code, `main`
from `grok.go`. -/
def scenarioADefined (root : String) : List String :=
  (if scenarioADoPrintDefined root then ["do_print"] else []) ++ ["Print", "main"]

/-- The final link of scenario A resolves every referenced symbol. -/
def scenarioALinked (root : String) : Prop :=
  ∀ s ∈ scenarioARefs, s ∈ scenarioADefined root

instance (root : String) : Decidable (scenarioALinked root) :=
  inferInstanceAs (Decidable (∀ s ∈ scenarioARefs, s ∈ scenarioADefined root))

/-- Modelled from the scenario's C code: `do_print` writes its argument to
stdout (`fputs(str, stdout)`). -/
def doPrintSem (s : String) : String := s

/-- `main` (in `grok.go`) calls `Print("Hello World!\n")`, which marshals the
string and passes it to `do_print`; the binary's stdout is that output
regardless of its stdin. -/
def scenarioAMainOut : String := doPrintSem "Hello World!\n"

/-- Running scenario A's binary: it exists (and then produces `main`'s
output, ignoring stdin) only if the package compiled and linked. -/
def runScenarioA (root _stdin : String) : Option String :=
  if scenarioADoPrintDefined root ∧ scenarioALinked root then some scenarioAMainOut
  else none

/-- The resolved CFLAGS of scenario A: the `${SRCDIR}` in the include path is
replaced by the package directory (the sandbox root, since the package sits
at the tree root). -/
theorem scenarioA_resolved (root : String) :
    resolveCategory root scenarioAFlags [] FlagCategory.cflags =
      ["-DDEFINE_DO_PRINT", "-I", root ++ "/foo"] := by
  have h3 : expandSrcdir root "$\x7bSRCDIR\x7d/foo" = root ++ "/foo" := by
    apply string_ext
    show substSrcdir root.data ("$\x7bSRCDIR\x7d/foo").data = (root ++ "/foo").data
    rw [show ("$\x7bSRCDIR\x7d/foo").data = [] ++ srcdirTok ++ "/foo".data from rfl]
    rw [substSrcdir_single root.data [] "/foo".data (by decide) (by decide)]
    rfl
  show resolveFlags root scenarioAFlags.cflags [] = _
  simp only [scenarioAFlags, resolveFlags, List.append_nil, List.map]
  rw [expandSrcdir_of_no_dollar _ _ (by decide),
    expandSrcdir_of_no_dollar _ _ (by decide), h3]

/-- The compiler derives exactly one include directory from scenario A's
resolved CFLAGS. -/
theorem includeDirs_scenarioA (d : String) :
    includeDirs ["-DDEFINE_DO_PRINT", "-I", d] = [d] := by
  simp [includeDirs]

/-- The dependency-supplied header is visible through the substituted
include directory: the path the compiler probes is exactly the header's
sandbox path. -/
theorem scenarioA_header (root : String) :
    headerVisible (absTree root scenarioATree) [root ++ "/foo"] "constants.h" := by
  refine ⟨root ++ "/foo", List.mem_singleton.mpr rfl, ?_⟩
  have hpath : (root ++ "/foo") ++ "/" ++ "constants.h" = root ++ "/" ++ "foo/constants.h" := by
    apply string_ext
    show (root.data ++ "/foo".data ++ "/".data) ++ "constants.h".data =
      (root.data ++ "/".data) ++ "foo/constants.h".data
    simp only [List.append_assoc]
    exact congrArg (fun l => root.data ++ l) (by decide)
  rw [hpath]
  simp [absTree, scenarioATree, scenarioAPkgFiles]

/-- In scenario A the preprocessor keeps `do_print`: the macro is set and the
header is reachable. -/
theorem scenarioA_doPrint (root : String) : scenarioADoPrintDefined root := by
  unfold scenarioADoPrintDefined
  rw [scenarioA_resolved, includeDirs_scenarioA]
  exact ⟨by simp, scenarioA_header root⟩

/-- Scenario A's package compiles: the glue file's compiler invocation —
which receives the resolved flags — succeeds, and the pipeline produces the
archive of the glue object and the Go-stub object. -/
theorem scenarioA_compiles (root : String) :
    cgoCompile (tcScenarioA root) (.ok "gostub") root (fun _ => []) scenarioARequest =
      .ok ⟨"_all.a",
        sortObjects [("_cgo_export.c.o", "obj:_cgo_export.c"), (goStubObjName, "gostub")]⟩ := by
  have hdp := scenarioA_doPrint root
  unfold scenarioADoPrintDefined at hdp
  have htc : tcScenarioA root FlagCategory.cflags
      (resolveCategory root scenarioAFlags [] FlagCategory.cflags) genCFileName =
      .ok ("obj:" ++ genCFileName) := by
    unfold tcScenarioA
    rw [if_pos hdp]
  have hco : compileOne (tcScenarioA root) root scenarioARequest.cgoFlags (fun _ => [])
      (genCFileName, FlagCategory.cflags) =
      .ok (objName genCFileName, "obj:" ++ genCFileName) := by
    unfold compileOne
    show (tcScenarioA root FlagCategory.cflags
      (resolveCategory root scenarioAFlags [] FlagCategory.cflags) genCFileName).map _ = _
    rw [htc]
    rfl
  have hnat : compileNatives (tcScenarioA root) root (fun _ => []) scenarioARequest =
      .ok [(objName genCFileName, "obj:" ++ genCFileName)] := by
    unfold compileNatives
    rw [show nativeSources scenarioARequest = [(genCFileName, FlagCategory.cflags)] from rfl]
    simp [mapE, hco]
  unfold cgoCompile cgoCompileSched
  rw [hnat]
  rfl

/-- The final link of scenario A resolves both `do_print` and `Print`. -/
theorem scenarioA_links (root : String) : scenarioALinked root := by
  have hdef : scenarioADefined root = ["do_print", "Print", "main"] := by
    unfold scenarioADefined
    rw [if_pos (scenarioA_doPrint root)]
    rfl
  intro s hs
  fin_cases hs <;> simp [hdef]

/-- C1: end-to-end scenario A — the package's one cgo file is classified as
such, the compile succeeds (the glue compiles because `-DDEFINE_DO_PRINT`
and the substituted `-I <root>/foo` reach the compiler and make the
header-only resource visible) and produces a non-empty archive, and running
the linked binary with stdin `"Hello World!\n"` produces stdout
`"Hello World!\n"`. -/
theorem scenario_a_end_to_end (root : String) :
    (analyze scenarioAPkgFiles).cgoFiles = ["printer.go"] ∧
    (∃ res, cgoCompile (tcScenarioA root) (.ok "gostub") root (fun _ => [])
        scenarioARequest = .ok res ∧ res.members ≠ []) ∧
    runScenarioA root "Hello World!\n" = some "Hello World!\n" := by
  refine ⟨by decide, ⟨_, scenarioA_compiles root, sortObjects_ne_nil (by simp)⟩, ?_⟩
  unfold runScenarioA
  rw [if_pos ⟨scenarioA_doPrint root, scenarioA_links root⟩]
  rfl

/-- C9: package analysis classifies only the `import "C"` file into
`cgo_files` — `cgo_files = ["printer.go"]`, while the plain `grok.go` goes to
the ordinary Go files and appears in no native/cgo list — and `grok.go`'s
call to the symbol `Print` defined in the cgo file still resolves in the
final linked binary. -/
theorem scenario_a_classification (root : String) :
    (analyze scenarioAPkgFiles).cgoFiles = ["printer.go"] ∧
    (analyze scenarioAPkgFiles).goFiles = ["grok.go"] ∧
    ("grok.go" ∉ (analyze scenarioAPkgFiles).cgoFiles ∧
      "grok.go" ∉ (analyze scenarioAPkgFiles).cFiles ∧
      "grok.go" ∉ (analyze scenarioAPkgFiles).cxxFiles ∧
      "grok.go" ∉ (analyze scenarioAPkgFiles).mFiles ∧
      "grok.go" ∉ (analyze scenarioAPkgFiles).fFiles ∧
      "grok.go" ∉ (analyze scenarioAPkgFiles).hFiles) ∧
    ("Print" ∈ scenarioADefined root ∧ scenarioALinked root ∧
      runScenarioA root "" = some "Hello World!\n") := by
  refine ⟨by decide, by decide, by decide, ?_, scenarioA_links root, ?_⟩
  · unfold scenarioADefined
    rw [if_pos (scenarioA_doPrint root)]
    simp
  · unfold runScenarioA
    rw [if_pos ⟨scenarioA_doPrint root, scenarioA_links root⟩]
    rfl

/-! ## Scenario B: cgo file plus a C++ source (test_cgo_with_cxx_source) -/

/-- The cgo file `main.go` of scenario B, transcribed from the test: it
declares `extern void do_print(const char *)` and calls it from `main`. -/
def scenarioBMainGo : String :=
  String.intercalate "\n"
    ["package main",
     "",
     "// #include <stdlib.h>",
     "// extern void do_print(const char *);", "import \"C\"", "import \"unsafe\"",
     "",
     "func main() \x7b",
     "    cs := C.CString(\"Hello World!\")",
     "    C.do_print(cs)",
     "    C.free(unsafe.Pointer(cs))",
     "\x7d", ""]

/-- The C++ source `print.cxx` of scenario B: defines
`extern "C" void do_print(const char *)`, which writes its argument and a
newline to stdout. -/
def scenarioBPrintCxx : String :=
  String.intercalate "\n"
    ["\\",
     "#include <iostream>",
     "",
     "extern \"C\" void do_print(const char * str) \x7b",
     "    std::cout << str << \"\\n\";",
     "    std::cout.flush();",
     "\x7d", ""]

/-- The package source files of scenario B. -/
def scenarioBPkgFiles : List (String × String) :=
  [("main.go", scenarioBMainGo), ("print.cxx", scenarioBPrintCxx)]

/-- The compile request of scenario B: one cgo file, one C++ file, no
directive flags. -/
def scenarioBRequest : CompileRequest :=
  ⟨"example.pantsbuild.org/cgotest", "main", "", ["main.go"], [], ["print.cxx"], [], [], [],
    ⟨[], [], [], []⟩⟩

/-- Symbols defined by scenario B's objects: `do_print` comes from the C++
file (compiled because it is in the request's C++ file list), `main` from the
cgo file. -/
def scenarioBDefined : List String :=
  (if "print.cxx" ∈ scenarioBRequest.cxxFiles then ["do_print"] else []) ++ ["main"]

/-- The final link of scenario B resolves the glue's reference to
`do_print`. -/
def scenarioBLinked : Prop := ∀ s ∈ ["do_print"], s ∈ scenarioBDefined

instance : Decidable scenarioBLinked :=
  inferInstanceAs (Decidable (∀ s ∈ ["do_print"], s ∈ scenarioBDefined))

/-- Modelled from the scenario's C++ code: `do_print` writes its argument
followed by a newline to stdout. -/
def doPrintCxxSem (s : String) : String := s ++ "\n"

/-- `main` calls `do_print("Hello World!")`. -/
def scenarioBMainOut : String := doPrintCxxSem "Hello World!"

/-- Running scenario B's binary. -/
def runScenarioB : Option String :=
  if scenarioBLinked then some scenarioBMainOut else none

/-- C7: end-to-end scenario B — analysis reports
`cgo_files = ["main.go"]` and `cxx_files = ["print.cxx"]`, the compile
succeeds with a non-empty archive, and the assembled binary prints
`"Hello World!\n"` to stdout. -/
theorem scenario_b_end_to_end (root : String) :
    (analyze scenarioBPkgFiles).cgoFiles = ["main.go"] ∧
    (analyze scenarioBPkgFiles).cxxFiles = ["print.cxx"] ∧
    (∃ res, cgoCompile tcAllOk (.ok "gostub") root (fun _ => []) scenarioBRequest =
        .ok res ∧ res.members ≠ []) ∧
    runScenarioB = some "Hello World!\n" := by
  refine ⟨by decide, by decide, ⟨_, rfl, sortObjects_ne_nil (by simp [assemblerInput])⟩, by decide⟩

/-! ## Scenario F: cgo file plus a Fortran source (test_cgo_with_fortran_source) -/

/-- The Fortran source `answer.f90`, transcribed from the test: a `bind(C)`
function returning 42. -/
def scenarioFAnswerF90 : String :=
  String.intercalate "\n"
    ["function the_answer() result(j) bind(C)",
     "  use iso_c_binding, only: c_int",
     "  integer(c_int) :: j ! output",
     "  j = 42",
     "end function the_answer", ""]

/-- The cgo file `main.go` of scenario F, transcribed from the test: declares
`extern int the_answer()` and prints `Answer: %d` with its result. -/
def scenarioFMainGo : String :=
  String.intercalate "\n"
    ["",
     "package main",
     "",
     "// extern int the_answer();", "import \"C\"", "import \"fmt\"",
     "",
     "func main() \x7b\x7b",
     "    fmt.Printf(\"Answer: %d\\n\", C.the_answer())",
     "\x7d\x7d", ""]

/-- The package source files of scenario F. -/
def scenarioFPkgFiles : List (String × String) :=
  [("answer.f90", scenarioFAnswerF90), ("main.go", scenarioFMainGo)]

/-- The compile request of scenario F: one cgo file, one Fortran file, no
directive flags. -/
def scenarioFRequest : CompileRequest :=
  ⟨"example.pantsbuild.org/cgotest", "main", "", ["main.go"], [], [], [], ["answer.f90"], [],
    ⟨[], [], [], []⟩⟩

/-- The toolchain of scenario F: Fortran sources compile only when a Fortran
compiler binary is configured; every other category compiles. -/
def tcScenarioF (fortranBinary : Option String) : ToolchainRun := fun cat _ f =>
  match cat, fortranBinary with
  | .fflags, none => .error ⟨"toolchain", f, "gfortran: tool not found"⟩
  | _, _ => .ok ("obj:" ++ f)

/-- The global/user-configured extra flags of scenario F: the user passes
`-L<libDir>` as a cgo linker flag (`--golang-cgo-linker-flags`), nothing
else. -/
def extraF (libDir : String) : FlagCategory → List String
  | .ldflags => ["-L" ++ libDir]
  | _ => []

/-- The library search directories a linker derives from its flags: each
`-L<dir>` flag (directory attached) contributes its directory. -/
def libSearchDirs : List String → List String
  | [] => []
  | f :: rest =>
    if "-L".data.isPrefixOf f.data then ⟨f.data.drop 2⟩ :: libSearchDirs rest
    else libSearchDirs rest

/-- Modelled from the spec (§4.3 edge case): the link step needs the Fortran
runtime library; the subsystem only carries the LDFLAGS it was given through
to link time, so the runtime links only if some user-supplied `-L` directory
actually contains `libgfortran.a`. -/
def fortranRuntimeLinked (ldflags hostLibs : List String) : Prop :=
  ∃ d ∈ libSearchDirs ldflags, (d ++ "/libgfortran.a") ∈ hostLibs

instance (ldflags hostLibs : List String) : Decidable (fortranRuntimeLinked ldflags hostLibs) :=
  inferInstanceAs (Decidable (∃ d ∈ libSearchDirs ldflags, (d ++ "/libgfortran.a") ∈ hostLibs))

/-- Modelled from the scenario's Fortran code: `the_answer` returns 42. -/
def theAnswerSem : Int := 42

/-- `main` prints `Answer: %d\n` formatted with `the_answer()`. -/
def scenarioFMainOut : String := "Answer: " ++ toString theAnswerSem ++ "\n"

/-- Running scenario F's binary: it links (and then prints `main`'s output)
only if the Fortran runtime is reachable through the LDFLAGS carried to link
time. -/
def runScenarioF (ldflags hostLibs : List String) : Option String :=
  if fortranRuntimeLinked ldflags hostLibs then some scenarioFMainOut else none

/-- A list is a prefix of itself followed by anything. -/
theorem isPrefixOf_append_self (p b : List Char) : p.isPrefixOf (p ++ b) = true := by
  rw [List.isPrefixOf_iff_prefix]
  exact List.prefix_append _ _

/-- A lone attached `-L<dir>` flag yields exactly that search directory. -/
theorem libSearchDirs_single (d : String) : libSearchDirs ["-L" ++ d] = [d] := by
  unfold libSearchDirs
  rw [show ("-L" ++ d).data = "-L".data ++ d.data from rfl]
  rw [isPrefixOf_append_self]
  simp only [if_true]
  rw [show (("-L".data ++ d.data).drop 2) = d.data from List.drop_left "-L".data d.data]
  rfl

/-- The resolved LDFLAGS of scenario F: the user's `-L<libDir>` passes
through unchanged (there are no directive LDFLAGS). -/
theorem scenarioF_resolved (root libDir : String) (hnd : '$' ∉ libDir.data) :
    resolveCategory root scenarioFRequest.cgoFlags (extraF libDir FlagCategory.ldflags)
      FlagCategory.ldflags = ["-L" ++ libDir] := by
  show resolveFlags root [] ["-L" ++ libDir] = _
  simp only [resolveFlags, List.nil_append, List.map]
  rw [expandSrcdir_of_no_dollar]
  rw [show ("-L" ++ libDir).data = "-L".data ++ libDir.data from rfl]
  intro hmem
  rcases List.mem_append.mp hmem with h | h
  · exact absurd h (by decide)
  · exact hnd h

/-- C10: end-to-end scenario F — analysis reports
`f_files = ["answer.f90"]` (and the cgo file), and with a Fortran compiler
configured and the global cgo linker flags carrying `-L<libDir>` where
`libDir` contains `libgfortran.a`, the compile succeeds with a non-empty
archive and the linked binary prints `"Answer: 42\n"`; without the
user-supplied `-L` flag the runtime is not found — the subsystem does not
locate the Fortran runtime library itself. -/
theorem scenario_f_end_to_end (root libDir fb : String) (hostLibs : List String)
    (hlib : (libDir ++ "/libgfortran.a") ∈ hostLibs) (hnd : '$' ∉ libDir.data) :
    (analyze scenarioFPkgFiles).fFiles = ["answer.f90"] ∧
    (analyze scenarioFPkgFiles).cgoFiles = ["main.go"] ∧
    (∃ res, cgoCompile (tcScenarioF (some fb)) (.ok "gostub") root (extraF libDir)
        scenarioFRequest = .ok res ∧ res.members ≠ []) ∧
    runScenarioF (resolveCategory root scenarioFRequest.cgoFlags
        (extraF libDir FlagCategory.ldflags) FlagCategory.ldflags) hostLibs =
      some "Answer: 42\n" ∧
    runScenarioF (resolveCategory root scenarioFRequest.cgoFlags [] FlagCategory.ldflags)
      hostLibs = none := by
  refine ⟨by decide, by decide, ⟨_, rfl, sortObjects_ne_nil (by simp [assemblerInput])⟩, ?_, ?_⟩
  · unfold runScenarioF
    rw [scenarioF_resolved root libDir hnd]
    have hlinked : fortranRuntimeLinked ["-L" ++ libDir] hostLibs := by
      unfold fortranRuntimeLinked
      rw [libSearchDirs_single]
      exact ⟨libDir, List.mem_singleton.mpr rfl, hlib⟩
    rw [if_pos hlinked]
    rfl
  · unfold runScenarioF
    rw [show resolveCategory root scenarioFRequest.cgoFlags [] FlagCategory.ldflags = [] from rfl]
    rw [if_neg]
    rintro ⟨d, hd, _⟩
    exact absurd hd (by simp [libSearchDirs])

/-- Witness for C10 at a concrete sandbox root, library directory and host
library set. -/
theorem scenario_f_witness :
    runScenarioF (resolveCategory "/sb" scenarioFRequest.cgoFlags
        (extraF "/lib" FlagCategory.ldflags) FlagCategory.ldflags)
      ["/lib/libgfortran.a"] = some "Answer: 42\n" :=
  (scenario_f_end_to_end "/sb" "/lib" "gfortran" ["/lib/libgfortran.a"]
    (by decide) (by decide)).2.2.2.1

end Cgo
